import Mathlib

/-!
Verification of the JSONLibraryUtils repository (BBN-Q): a shallow embedding of
`JSONMigrators.py` (versioned JSON migration engine, key normalizer, entity
filter) and `LibraryCoders.py` (class-tagged JSON codec), together with proofs
settling the specification claims about them.

Modelling conventions:
* Python/JSON values are the inductive `JVal`; Python `dict`s are association
  lists with pairwise-distinct keys, in insertion order (Python 3.7+ dicts
  preserve insertion order).
* Python `dict` primitives (`d[k]`, `d[k] = v`, `d.pop(k)`, `k in d`) are
  `dlookup`, `dinsert`, `dpop`/`dremove`, `hasKey`.
* Exceptions are `Except`/explicit error constructors; an uncaught exception
  is an error result carrying nothing else (the Python return value is lost).
* Machine integers are `Int` (Python ints are unbounded, so no wrap-around).
-/

/-- JSON values as Python's `json` module produces them (objects keep the
textual key order; numbers restricted to integers, which is all the
repository's documents use). -/
inductive JVal where
  | str (s : String)
  | num (n : Int)
  | bool (b : Bool)
  | null
  | arr (elts : List JVal)
  | obj (entries : List (String × JVal))

/-- A Python dict with string keys: association list in insertion order. -/
abbrev Entries := List (String × JVal)

/-- `d[k]` / `d.get(k)`: first (only, keys being distinct) binding of `k`. -/
def dlookup {α : Type} (k : String) : List (String × α) → Option α
  | [] => none
  | (k', v) :: rest => if k' = k then some v else dlookup k rest

/-- `k in d`. -/
def hasKey {α : Type} (k : String) (d : List (String × α)) : Bool :=
  (dlookup k d).isSome

/-- `d[k] = v`: overwrite in place if the key exists, else append at the end
(Python dicts keep the original position of an overwritten key). -/
def dinsert (k : String) (v : JVal) : Entries → Entries
  | [] => [(k, v)]
  | (k', v') :: rest => if k' = k then (k, v) :: rest else (k', v') :: dinsert k v rest

/-- Removal of the binding of `k` (used by `d.pop`). -/
def dremove (k : String) : Entries → Entries
  | [] => []
  | (k', v') :: rest => if k' = k then rest else (k', v') :: dremove k rest

/-- `d.pop(k, None)` as value-and-remainder (the caller decides whether a
missing key is `None` or a `KeyError`). -/
def dpop (k : String) (d : Entries) : Option JVal × Entries :=
  match dlookup k d with
  | some v => (some v, dremove k d)
  | none => (none, d)

/-! ## Key normalizer (`snakeify`, JSONMigrators.py lines 22-26)

```python
first_cap_re = re.compile('(.)([A-Z][a-z]+)')
all_cap_re = re.compile('([a-z0-9])([A-Z])')
def snakeify(name):
    s1 = first_cap_re.sub(r'\x7b', name)  # actually r'\1_\2'
    return all_cap_re.sub(r'\1_\2', s1).lower()
```

`re.sub` scans left to right, replaces each leftmost non-overlapping match and
resumes scanning immediately after the matched span.  The two patterns are
embedded directly: `.` is any character except a newline, `[A-Z]`/`[a-z]`/
`[0-9]` are the ASCII ranges, and `[a-z]+` is greedy. -/

def isUp (c : Char) : Bool := 'A' ≤ c && c ≤ 'Z'
def isLow (c : Char) : Bool := 'a' ≤ c && c ≤ 'z'
def isDigitCh (c : Char) : Bool := '0' ≤ c && c ≤ '9'

/-- One left-to-right `re.sub` scan for `(.)([A-Z][a-z]+)` with replacement
`\1_\2`.  The `Bool` mode is `true` while consuming the greedy `[a-z]+` tail
of a match (those characters are part of the match, so no new match may start
inside them); fuel makes the recursion structural, `firstCapSub` supplies
enough fuel for the whole scan. -/
def firstCapAux : Nat → Bool → List Char → List Char
  | 0, _, l => l
  | _ + 1, true, [] => []
  | fuel + 1, true, c :: rest =>
      if isLow c then c :: firstCapAux fuel true rest
      else firstCapAux fuel false (c :: rest)
  | fuel + 1, false, c1 :: c2 :: c3 :: rest =>
      if c1 ≠ '\n' && isUp c2 && isLow c3 then
        c1 :: '_' :: c2 :: c3 :: firstCapAux fuel true rest
      else c1 :: firstCapAux fuel false (c2 :: c3 :: rest)
  | _ + 1, false, l => l

/-- `first_cap_re.sub(r'\1_\2', name)`. -/
def firstCapSub (l : List Char) : List Char :=
  firstCapAux (2 * l.length + 2) false l

/-- `all_cap_re.sub(r'\1_\2', s1)`: one scan for `([a-z0-9])([A-Z])`; after a
match the scan resumes after the uppercase letter. -/
def allCapSub : List Char → List Char
  | c1 :: c2 :: rest =>
      if (isLow c1 || isDigitCh c1) && isUp c2 then
        c1 :: '_' :: c2 :: allCapSub rest
      else c1 :: allCapSub (c2 :: rest)
  | l => l

/-- `str.lower()` (all keys in the repository are ASCII, where Python's
`lower` agrees with ASCII lowercasing). -/
def lowerChar (c : Char) : Char :=
  if 'A' ≤ c && c ≤ 'Z' then Char.ofNat (c.toNat + 32) else c

/-- `snakeify` (JSONMigrators.py lines 24-26): the two ordered regex passes,
then lowercase the whole string. -/
def snakeify (name : String) : String :=
  String.mk ((allCapSub (firstCapSub name.toList)).map lowerChar)

/-! ## Recursive key normalizer (`rec_snakeify`, JSONMigrators.py lines 29-38)

```python
def rec_snakeify(dictionary, start_level=0, level=0):
    new = \x7b\x7d
    for k, v in dictionary.items():
        if isinstance(v, dict):
            v = rec_snakeify(v, start_level=start_level, level=level+1)
        if level >= start_level:
            new[snakeify(k)] = v
        else:
            new[k] = v
    return new
```

The loop over a dict in insertion order building a fresh dict is an
accumulator fold of `dinsert`. -/

/-- The key written into the fresh dict: renamed only when
`level >= start_level`. -/
def tKey (start_level level : Nat) (k : String) : String :=
  if start_level ≤ level then snakeify k else k

mutual
/-- The transformation `rec_snakeify` applies to a value found while walking a
dict at depth `l`: values that are dicts are recursed into, every other value
(including lists) is left untouched. -/
def snakeVal (s : Nat) : Nat → JVal → JVal
  | l, JVal.obj e => JVal.obj (snakeEntries s l e [])
  | _, v => v

/-- The loop of `rec_snakeify` at `start_level = s`, `level = l`: fold the
entries in insertion order into the fresh dict `acc`, first recursing (at
`level + 1`) into values that are themselves dicts, then writing the entry
under the (possibly renamed) key. -/
def snakeEntries (s : Nat) : Nat → Entries → Entries → Entries
  | _, [], acc => acc
  | l, (k, v) :: rest, acc =>
      snakeEntries s l rest (dinsert (tKey s l k) (snakeVal s (l + 1) v) acc)
end

/-- `rec_snakeify(dictionary, start_level, level)`. -/
def rec_snakeify (d : Entries) (start_level : Nat) (level : Nat := 0) : Entries :=
  snakeEntries start_level level d []

/-! ## Entity filter (`is_class` / `get_items_matching_class`,
JSONMigrators.py lines 85-100 and 124-125) -/

/-- Python equality of a JSON value with the string literal `s`
(used for the comparisons with tag-class names, which are strings). -/
def jvalIsStr (v : JVal) (s : String) : Bool :=
  match v with
  | JVal.str t => t = s
  | _ => false

/-- `JSONMigrator.is_class(jsonDict, searchClasses)` with `searchClasses`
already in list form (the method wraps a bare string into a one-element list;
`is_class_str` below is that wrapped entry point):
not a dict, or no tag field, means no match; otherwise the tag value is
compared for equality with each candidate name. -/
def is_class (j : JVal) (searchClasses : List String) : Bool :=
  match j with
  | JVal.obj e =>
      match dlookup "x__class__" e with
      | some v => searchClasses.any (fun c => jvalIsStr v c)
      | none => false
  | _ => false

/-- `is_class` called with a bare string, as the base class and
`ChannelMigrator.version_2_to_3` do: the string is wrapped in a list. -/
def is_class_str (j : JVal) (c : String) : Bool := is_class j [c]

/-- `JSONMigrator.get_items_matching_class(classes)` (lines 124-125): the
names in the primary dictionary, in insertion order, whose record matches
`is_class`. -/
def get_items_matching_class (d : Entries) (classes : List String) : List String :=
  (d.map Prod.fst).filter (fun a =>
    match dlookup a d with
    | some v => is_class v classes
    | none => false)

/-- Does a record carry the tag-class field at all?  (Used to state that an
untagged record never matches.) -/
def hasClassTag : JVal → Bool
  | JVal.obj e => hasKey "x__class__" e
  | _ => false


/-! ## Migration engine (`JSONMigrator`, JSONMigrators.py lines 40-129)

The engine state after `load` is the parsed top-level dict `jsonDict`
together with the cached primary dictionary value `self.primaryDict`
(the value found under the primary key; validation does not check that it is
itself a dict, so it is an arbitrary `JVal` here).  Steps are the
`version_\x7bn\x7d_to_\x7bn+1\x7d` methods, looked up by name with `getattr`: distinct
integer versions give distinct method names, so the method table of a
migrator subclass is a partial map from the source version to the step
function; `getattr` on an absent name raises `AttributeError`. -/

structure MigState where
  jsonDict : Entries
  primaryDict : JVal

/-- The data of one migrator subclass: constructor arguments
(`fileName`, `libraryClass`, `primaryKey`, `max_version`) plus the class name
(used in log messages) and its method table of migration steps. -/
structure MigratorSpec where
  migratorName : String
  fileName : String
  libraryClass : String
  primaryKey : String
  max_version : Int
  steps : Int → Option (MigState → MigState)

/-- `JSONMigrator.version` (lines 58-62): the `version` entry, any failure
(no such key, no dict at all) giving 0.  A non-integer value would be
returned as-is in Python and crash the `<` comparison later; theorems about
runs therefore carry the `VersionInt` hypothesis below, under which this
total model agrees with the code. -/
def getVersion (d : Entries) : Int :=
  match dlookup "version" d with
  | some (JVal.num n) => n
  | _ => 0

/-- The `version` field is absent or an integer. -/
def VersionInt (d : Entries) : Prop :=
  dlookup "version" d = none ∨ ∃ n : Int, dlookup "version" d = some (JVal.num n)

/-- `self.jsonDict['version'] = self.version() + 1` (line 120). -/
def setVer (st : MigState) : MigState :=
  { st with jsonDict := dinsert "version" (JVal.num (getVersion st.jsonDict + 1)) st.jsonDict }

/-- The log entry appended for the step leaving version `v` (lines 115-117):
`Migrating: <Class>.version_<v>_to_<v+1>()`. -/
def migMsg (spec : MigratorSpec) (v : Int) : String :=
  "Migrating: " ++ spec.migratorName ++ ".version_" ++ toString v ++ "_to_"
    ++ toString (v + 1) ++ "()"

/-- What reading and parsing the file can produce: `open` can raise `IOError`
(caught by `load`), `json.load` can raise a `ValueError` (not caught), or a
parsed JSON value comes back. -/
inductive RawInput where
  | ioError
  | parseError
  | parsed (j : JVal)

/-- Uncaught Python exceptions escaping the engine. -/
inductive MigError where
  | valueError
  | attributeError
deriving DecidableEq

/-- `print('json file \x7b0\x7d not found'.format(self.fileName))` (line 69). -/
def notFoundMsg (spec : MigratorSpec) : String :=
  "json file " ++ spec.fileName ++ " not found"

/-- `print("Error json file is not a \x7b0\x7d".format(self.libraryClass))`
(line 81). -/
def invalidMsg (spec : MigratorSpec) : String :=
  "Error json file is not a " ++ spec.libraryClass

/-- `JSONMigrator.load` (lines 64-77) together with
`json_input_validate` (lines 79-83).  Result: uncaught exception, or the pair
(`jsonDict`+cached primary value if the document validated / `none`
otherwise) with the console messages printed along the way.
* `IOError` is caught: the not-found message is printed, `jsonDict` is
  `None`, and validation then also fails (non-dict) and prints its message.
* A parse `ValueError` is NOT caught (only `except IOError` is present) and
  escapes.
* A parsed non-dict, a tag-class mismatch, or a missing primary key fail
  validation: the validation message is printed and `jsonDict` is reset to
  `None`. -/
def load (spec : MigratorSpec) (input : RawInput) :
    Except MigError (Option (Entries × JVal) × List String) :=
  match input with
  | RawInput.parseError => Except.error MigError.valueError
  | RawInput.ioError => Except.ok (none, [notFoundMsg spec, invalidMsg spec])
  | RawInput.parsed j =>
      match j with
      | JVal.obj e =>
          if is_class_str (JVal.obj e) spec.libraryClass then
            match dlookup spec.primaryKey e with
            | some pd => Except.ok (some (e, pd), [])
            | none => Except.ok (none, [invalidMsg spec])
          else Except.ok (none, [invalidMsg spec])
      | _ => Except.ok (none, [invalidMsg spec])

/-- Outcome of the `while self.version() < self.max_version` loop
(lines 114-120).  `spin` is fuel exhaustion: the state and log after that
many iterations of a loop that has not finished yet. -/
inductive LoopOut where
  | ok (st : MigState) (msgs : List String)
  | err (e : MigError)
  | spin (st : MigState) (msgs : List String)

/-- The migration loop, one fuel unit per iteration:
while `version() < max_version`, format the step name, append the log entry,
look the step up (absence raises `AttributeError`, losing the log), run it,
and bump the version field to the post-step version + 1. -/
def runSteps (spec : MigratorSpec) : Nat → MigState → List String → LoopOut
  | 0, st, msgs =>
      if getVersion st.jsonDict < spec.max_version then LoopOut.spin st msgs
      else LoopOut.ok st msgs
  | fuel + 1, st, msgs =>
      if getVersion st.jsonDict < spec.max_version then
        match spec.steps (getVersion st.jsonDict) with
        | none => LoopOut.err MigError.attributeError
        | some f =>
            runSteps spec fuel (setVer (f st))
              (msgs ++ [migMsg spec (getVersion st.jsonDict)])
      else LoopOut.ok st msgs

/-- Result of `JSONMigrator.migrate` (lines 110-122).
* `ok saved messages printed`: normal return of the `messages` list;
  `saved` is the document written by `save` (line 102-108: the primary dict
  re-embedded under the primary key), `none` when `save` was never reached
  (falsy `jsonDict`); `printed` is the console output.
* `err e`: the uncaught exception `e` escaped — nothing is returned and
  nothing is written.
* `spin`: the loop did not finish within the given fuel. -/
inductive MigOut where
  | ok (saved : Option Entries) (messages : List String) (printed : List String)
  | err (e : MigError)
  | spin

/-- `JSONMigrator.migrate` (lines 110-122): load, and if `self.jsonDict` is
truthy (a non-empty dict) run the loop and save. -/
def migrate (spec : MigratorSpec) (fuel : Nat) (input : RawInput) : MigOut :=
  match load spec input with
  | Except.error e => MigOut.err e
  | Except.ok (none, printed) => MigOut.ok none [] printed
  | Except.ok (some (jd, pd), printed) =>
      if jd.isEmpty then MigOut.ok none [] printed
      else
        match runSteps spec fuel ⟨jd, pd⟩ [] with
        | LoopOut.ok st msgs =>
            MigOut.ok (some (dinsert spec.primaryKey st.primaryDict st.jsonDict))
              msgs printed
        | LoopOut.err e => MigOut.err e
        | LoopOut.spin _ _ => MigOut.spin

/-- `SweepMigrator` (lines 256-264): library class `SweepLibrary`, primary
key `sweepDict`, target version 1; its only step is the inherited no-op
`version_0_to_1` (lines 127-129). -/
def sweepSpec : MigratorSpec :=
  { migratorName := "SweepMigrator"
    fileName := "Sweeps.json"
    libraryClass := "SweepLibrary"
    primaryKey := "sweepDict"
    max_version := 1
    steps := fun v => if v = 0 then some (fun st => st) else none }

/-! ## Class-tagged codec (`LibraryCoders.py`)

`LibraryEncoder.default` (lines 15-33) serializes an `Atom` value as its
field mapping with the runtime class and module names injected under
`x__class__` / `x__module__`.  `LibraryDecoder.dict_to_obj` (lines 40-63) is
the `object_hook`: a mapping carrying a type tag under either historical
spelling is rebuilt into an instance; the module is brought in by a dynamic
`__import__(moduleName)` at decode time, the class fetched with `getattr`
from `sys.modules[moduleName]`, and the instance constructed from the
remaining fields (via `update_from_jsondict` when the class has it, else as
keyword arguments — for `atom` classes both set exactly those fields).
The Python 2 ascii re-encoding branch is dead under Python 3 and is not
modelled. -/

/-- What the decoder needs to know about a constructible class: whether it
exposes `update_from_jsondict`.  Either construction path yields an instance
whose fields are the remaining mapping, so the flag does not change the
result, only which branch of the code runs. -/
structure ClassDef where
  hasUpdater : Bool

/-- A serializable runtime object: its class name, defining module name and
field mapping (what `json_encode()` / `__getstate__()` export, and what the
constructor paths set). -/
structure PyObj where
  className : String
  moduleName : String
  fields : Entries

/-- The Python process as the decoder sees it: `sys.modules` at the time of
the call (`loaded`), and the modules a runtime `__import__` could load on
demand (`importable`); each maps a module name to its classes. -/
structure PyEnv where
  loaded : List (String × List (String × ClassDef))
  importable : List (String × List (String × ClassDef))

/-- `__import__(moduleName)` followed by `sys.modules[moduleName]`: an
already-loaded module is found; otherwise the import machinery loads it if
it exists; otherwise `ImportError`. -/
def resolveModule (env : PyEnv) (m : String) : Option (List (String × ClassDef)) :=
  match dlookup m env.loaded with
  | some classes => some classes
  | none => dlookup m env.importable

/-- Python truthiness of a JSON value (`if not className: ...`). -/
def pyTruthy : JVal → Bool
  | JVal.str s => s ≠ ""
  | JVal.num n => n ≠ 0
  | JVal.bool b => b
  | JVal.null => false
  | JVal.arr l => !l.isEmpty
  | JVal.obj e => !e.isEmpty

/-- The exceptions `dict_to_obj` can raise: `KeyError` from `pop` without a
default, `ImportError` from `__import__`, `AttributeError` from `getattr`,
`TypeError` from import/getattr applied to a non-string tag value. -/
inductive DecodeErr where
  | keyError
  | importError
  | attributeError
  | typeError
deriving DecidableEq

/-- What `dict_to_obj` returns: the mapping unchanged (no type tag), or a
reconstructed instance. -/
inductive DecResult where
  | plain (d : Entries)
  | objVal (o : PyObj)

/-- `LibraryEncoder.default` on an `Atom` value (lines 15-30): the exported
field mapping with `x__class__` and then `x__module__` written into it. -/
def encodeObj (x : PyObj) : Entries :=
  dinsert "x__module__" (JVal.str x.moduleName)
    (dinsert "x__class__" (JVal.str x.className) x.fields)

/-- The shared tag-popping pattern of `dict_to_obj` (lines 43-48):
`v = jsonDict.pop(primary, None); if not v: v = jsonDict.pop(legacy)` —
the second `pop` has no default, so a missing legacy key is a `KeyError`. -/
def popTag (primary legacy : String) (d : Entries) :
    Except DecodeErr (JVal × Entries) :=
  match dpop primary d with
  | (some v, d1) =>
      if pyTruthy v then Except.ok (v, d1)
      else
        match dpop legacy d1 with
        | (some w, d2) => Except.ok (w, d2)
        | (none, _) => Except.error DecodeErr.keyError
  | (none, d1) =>
      match dpop legacy d1 with
      | (some w, d2) => Except.ok (w, d2)
      | (none, _) => Except.error DecodeErr.keyError

/-- `LibraryDecoder.dict_to_obj` (lines 40-63). -/
def dict_to_obj (env : PyEnv) (d : Entries) : Except DecodeErr DecResult :=
  if hasKey "x__class__" d || hasKey "__class__" d then
    match popTag "x__class__" "__class__" d with
    | Except.error e => Except.error e
    | Except.ok (classNameV, d1) =>
        match popTag "x__module__" "__module__" d1 with
        | Except.error e => Except.error e
        | Except.ok (moduleNameV, d2) =>
            match moduleNameV with
            | JVal.str mn =>
                match resolveModule env mn with
                | none => Except.error DecodeErr.importError
                | some classes =>
                    match classNameV with
                    | JVal.str cn =>
                        match dlookup cn classes with
                        | none => Except.error DecodeErr.attributeError
                        | some cdef =>
                            if cdef.hasUpdater then
                              Except.ok (DecResult.objVal ⟨cn, mn, d2⟩)
                            else
                              Except.ok (DecResult.objVal ⟨cn, mn, d2⟩)
                    | _ => Except.error DecodeErr.typeError
            | _ => Except.error DecodeErr.typeError
  else Except.ok (DecResult.plain d)

/-- Modelled from the spec, for comparison with `dict_to_obj` (the code under
test): spec section 4.4 describes decode as resolving the namespace through
an explicit lookup table populated at process start — NOT a dynamic runtime
module import — and failing with `UnknownTypeError` when either the namespace or the
type-name lookup fails.  Here the startup table is exactly the modules loaded
at process start (`env.loaded`); no import happens, and both failures are the
single typed error. -/
inductive SpecDecodeErr where
  | keyError
  | unknownTypeError
  | typeError
deriving DecidableEq

/-- Modelled from the spec: the decode step that spec section 4.4 claims the
code performs (registry lookup, `UnknownTypeError`), to be compared with
`dict_to_obj`. -/
def dict_to_obj_registry_spec (env : PyEnv) (d : Entries) :
    Except SpecDecodeErr DecResult :=
  if hasKey "x__class__" d || hasKey "__class__" d then
    match popTag "x__class__" "__class__" d with
    | Except.error _ => Except.error SpecDecodeErr.keyError
    | Except.ok (classNameV, d1) =>
        match popTag "x__module__" "__module__" d1 with
        | Except.error _ => Except.error SpecDecodeErr.keyError
        | Except.ok (moduleNameV, d2) =>
            match moduleNameV with
            | JVal.str mn =>
                match dlookup mn env.loaded with
                | none => Except.error SpecDecodeErr.unknownTypeError
                | some classes =>
                    match classNameV with
                    | JVal.str cn =>
                        match dlookup cn classes with
                        | none => Except.error SpecDecodeErr.unknownTypeError
                        | some _ => Except.ok (DecResult.objVal ⟨cn, mn, d2⟩)
                    | _ => Except.error SpecDecodeErr.typeError
            | _ => Except.error SpecDecodeErr.typeError
  else Except.ok (DecResult.plain d)

/-- The step functions of a migrator never touch the top-level `version`
field (true of every registered step in the repository: they mutate the
primary dictionary and, in one case, `x__module__`). -/
def StepsPreserveVersion (spec : MigratorSpec) : Prop :=
  ∀ v f, spec.steps v = some f →
    ∀ st : MigState, dlookup "version" (f st).jsonDict = dlookup "version" st.jsonDict

/-- Every version from 0 (inclusive) up to the target has a registered step. -/
def StepsComplete (spec : MigratorSpec) : Prop :=
  ∀ v : Int, 0 ≤ v → v < spec.max_version → (spec.steps v).isSome

/-- SweepLibrary document at version 0 (no `version` field):
a concrete input for the claims about the engine. -/
def sweepDoc0 : Entries :=
  [("x__class__", JVal.str "SweepLibrary"), ("sweepDict", JVal.obj [])]

/-- Is the value a dict? (JSON mapping) -/
def isObjB : JVal → Bool
  | JVal.obj _ => true
  | _ => false

/-- The tag-class field of a record is exactly the string `c`. -/
def classFieldIs (e : Entries) (c : String) : Bool :=
  match dlookup "x__class__" e with
  | some v => jvalIsStr v c
  | none => false

/-- A SweepLibrary document at version -1: a well-formed document whose
current version has no registered step (`version_-1_to_0` exists on no
migrator). -/
def sweepDocNeg : Entries :=
  [("x__class__", JVal.str "SweepLibrary"), ("sweepDict", JVal.obj []),
   ("version", JVal.num (-1))]

/-- A concrete primary dictionary for the entity-filter witness. -/
def entityDictW : Entries :=
  [("q1", JVal.obj [("x__class__", JVal.str "Qubit")]),
   ("m1", JVal.obj [("x__class__", JVal.str "Measurement")]),
   ("r1", JVal.obj [("physChan", JVal.str "q1")])]

/-- A concrete serializable value and environment for the round-trip
witness. -/
def objW : PyObj :=
  ⟨"KernelIntegrator", "MeasFilters", [("if_freq", JVal.num 10)]⟩

/-- The process environment with `objW`'s class loaded at start. -/
def envW : PyEnv :=
  ⟨[("MeasFilters", [("KernelIntegrator", ⟨true⟩)])], []⟩

/-- A module present on disk (importable) but NOT loaded at process start. -/
def envDyn : PyEnv :=
  ⟨[], [("QGL.ChannelLibrary", [("Qubit", ⟨false⟩)])]⟩

/-- A tagged mapping naming that not-yet-loaded module. -/
def taggedDyn : Entries :=
  [("x__class__", JVal.str "Qubit"),
   ("x__module__", JVal.str "QGL.ChannelLibrary")]

/-! ## Theorems -/
/-! ### Dictionary lemmas -/

theorem dinsert_eq_append (k : String) (v : JVal) :
    ∀ d : Entries, hasKey k d = false → dinsert k v d = d ++ [(k, v)] := by
  intro d
  induction d with
  | nil => intro _; rfl
  | cons p rest ih =>
      obtain ⟨k', v'⟩ := p
      intro h
      simp only [hasKey, dlookup, Option.isSome] at h
      by_cases hk : k' = k
      · rw [if_pos hk] at h; exact absurd h (by simp)
      · rw [if_neg hk] at h
        simp only [dinsert, if_neg hk, List.cons_append, List.cons.injEq, true_and]
        exact ih h

theorem hasKey_append {α : Type} (k : String) (d1 d2 : List (String × α)) :
    hasKey k (d1 ++ d2) = (hasKey k d1 || hasKey k d2) := by
  induction d1 with
  | nil => simp [hasKey, dlookup]
  | cons p rest ih =>
      obtain ⟨k', v'⟩ := p
      by_cases hk : k' = k
      · simp [hasKey, dlookup, if_pos hk]
      · simpa [hasKey, dlookup, if_neg hk] using ih

theorem hasKey_singleton {α : Type} (k k' : String) (v : α) :
    hasKey k' [(k, v)] = (k = k' : Bool) := by
  simp [hasKey, dlookup]
  by_cases h : k = k' <;> simp [h]

/-! ### Unfolding and accumulator lemmas for `snakeEntries` -/

theorem snakeEntries_nil (s l : Nat) (acc : Entries) :
    snakeEntries s l [] acc = acc := by
  simp [snakeEntries]

theorem snakeEntries_cons (k : String) (v : JVal) (rest : Entries)
    (s l : Nat) (acc : Entries) :
    snakeEntries s l ((k, v) :: rest) acc =
      snakeEntries s l rest
        (dinsert (tKey s l k) (snakeVal s (l + 1) v) acc) := by
  simp [snakeEntries]

/-- A run of the `rec_snakeify` loop whose (transformed) keys are pairwise
distinct and fresh for the accumulator just appends the transformed entries
in order. -/
theorem snakeEntries_eq_append (s l : Nat) :
    ∀ (d acc : Entries),
      (d.map (fun kv => tKey s l kv.1)).Nodup →
      (∀ k, k ∈ d.map (fun kv => tKey s l kv.1) → hasKey k acc = false) →
      snakeEntries s l d acc =
        acc ++ d.map (fun kv => (tKey s l kv.1, snakeVal s (l + 1) kv.2)) := by
  intro d
  induction d with
  | nil => intro acc _ _; simp [snakeEntries_nil]
  | cons p rest ih =>
      obtain ⟨k, v⟩ := p
      intro acc hnd hfresh
      rw [snakeEntries_cons]
      have hk : hasKey (tKey s l k) acc = false := hfresh _ (by simp)
      rw [dinsert_eq_append _ _ _ hk]
      have hnd' : (rest.map (fun kv => tKey s l kv.1)).Nodup :=
        (List.nodup_cons.mp (by simpa using hnd)).2
      have hnotin : tKey s l k ∉ rest.map (fun kv => tKey s l kv.1) :=
        (List.nodup_cons.mp (by simpa using hnd)).1
      have hfresh' : ∀ k', k' ∈ rest.map (fun kv => tKey s l kv.1) →
          hasKey k' (acc ++ [(tKey s l k, snakeVal s (l + 1) v)]) = false := by
        intro k' hk'
        rw [hasKey_append, hfresh k' (by simp [hk']), hasKey_singleton]
        simp only [Bool.false_or, decide_eq_false_iff_not]
        intro heq
        exact hnotin (heq ▸ hk')
      rw [ih _ hnd' hfresh']
      simp [List.append_assoc]

/-! ## Lemmas about the migration loop -/

theorem dlookup_dinsert_self (k : String) (v : JVal) :
    ∀ d : Entries, dlookup k (dinsert k v d) = some v := by
  intro d
  induction d with
  | nil => simp [dinsert, dlookup]
  | cons p rest ih =>
      obtain ⟨k', v'⟩ := p
      by_cases hk : k' = k
      · simp [dinsert, if_pos hk, dlookup]
      · simp [dinsert, if_neg hk, dlookup, hk, ih]

theorem getVersion_setVer (st : MigState) :
    getVersion (setVer st).jsonDict = getVersion st.jsonDict + 1 := by
  simp [setVer, getVersion, dlookup_dinsert_self]

theorem versionInt_setVer (st : MigState) : VersionInt (setVer st).jsonDict := by
  right
  exact ⟨getVersion st.jsonDict + 1, by simp [setVer, dlookup_dinsert_self]⟩

theorem getVersion_congr {d1 d2 : Entries}
    (h : dlookup "version" d1 = dlookup "version" d2) :
    getVersion d1 = getVersion d2 := by
  simp [getVersion, h]

/-- Characterization of the loop on a registry that is complete from the
current version and whose steps preserve the version field: running with
fuel `k` short of the distance to the target leaves the loop spinning at
version `v0 + k`, and fuel at least the distance finishes at exactly the
target version. -/
theorem runSteps_characterize (spec : MigratorSpec)
    (hpres : StepsPreserveVersion spec) (hcomp : StepsComplete spec) :
    ∀ (fuel : Nat) (st : MigState) (msgs : List String),
      VersionInt st.jsonDict →
      0 ≤ getVersion st.jsonDict →
      getVersion st.jsonDict ≤ spec.max_version →
      (((fuel : Int) < spec.max_version - getVersion st.jsonDict →
          ∃ st' msgs', runSteps spec fuel st msgs = LoopOut.spin st' msgs' ∧
            getVersion st'.jsonDict = getVersion st.jsonDict + fuel) ∧
        (spec.max_version - getVersion st.jsonDict ≤ (fuel : Int) →
          ∃ st' msgs', runSteps spec fuel st msgs = LoopOut.ok st' msgs' ∧
            getVersion st'.jsonDict = spec.max_version)) := by
  intro fuel
  induction fuel with
  | zero =>
      intro st msgs _ _ hle
      constructor
      · intro hlt
        have hv : getVersion st.jsonDict < spec.max_version := by
          push_cast at hlt; omega
        exact ⟨st, msgs, by simp [runSteps, if_pos hv], by simp⟩
      · intro hge
        have hv : ¬ getVersion st.jsonDict < spec.max_version := by
          push_cast at hge; omega
        exact ⟨st, msgs, by simp [runSteps, if_neg hv], by push_cast at hge; omega⟩
  | succ fuel ih =>
      intro st msgs hvi h0 hle
      by_cases hv : getVersion st.jsonDict < spec.max_version
      · obtain ⟨f, hf⟩ := Option.isSome_iff_exists.mp (hcomp _ h0 hv)
        have hstep : runSteps spec (fuel + 1) st msgs =
            runSteps spec fuel (setVer (f st))
              (msgs ++ [migMsg spec (getVersion st.jsonDict)]) := by
          simp [runSteps, if_pos hv, hf]
        have hver : getVersion (setVer (f st)).jsonDict =
            getVersion st.jsonDict + 1 := by
          rw [getVersion_setVer, getVersion_congr (hpres _ _ hf st)]
        have hvi' : VersionInt (setVer (f st)).jsonDict := versionInt_setVer _
        have h0' : 0 ≤ getVersion (setVer (f st)).jsonDict := by omega
        have hle' : getVersion (setVer (f st)).jsonDict ≤ spec.max_version := by
          omega
        obtain ⟨ihlt, ihge⟩ := ih (setVer (f st))
          (msgs ++ [migMsg spec (getVersion st.jsonDict)]) hvi' h0' hle'
        constructor
        · intro hlt
          have : (fuel : Int) < spec.max_version - getVersion (setVer (f st)).jsonDict := by
            push_cast at hlt ⊢; omega
          obtain ⟨st', msgs', heq, hv'⟩ := ihlt this
          exact ⟨st', msgs', hstep ▸ heq, by push_cast; omega⟩
        · intro hge
          have : spec.max_version - getVersion (setVer (f st)).jsonDict ≤ (fuel : Int) := by
            push_cast at hge ⊢; omega
          obtain ⟨st', msgs', heq, hv'⟩ := ihge this
          exact ⟨st', msgs', hstep ▸ heq, hv'⟩
      · constructor
        · intro hlt
          exact absurd hlt (by push_cast; omega)
        · intro _
          refine ⟨st, msgs, by simp [runSteps, if_neg hv], ?_⟩
          omega

/-- A document accepted by `load` has its tag-class field, hence is a
non-empty (truthy) dict. -/
theorem load_ok_nonempty {spec : MigratorSpec} {input : RawInput}
    {jd : Entries} {pd : JVal} {printed : List String}
    (h : load spec input = Except.ok (some (jd, pd), printed)) :
    jd.isEmpty = false := by
  cases input with
  | ioError => simp [load] at h
  | parseError => simp [load] at h
  | parsed j =>
      cases j with
      | obj e =>
          simp only [load] at h
          by_cases hc : is_class_str (JVal.obj e) spec.libraryClass
          · rw [if_pos hc] at h
            cases hpk : dlookup spec.primaryKey e with
            | some pd' =>
                rw [hpk] at h
                simp only [Except.ok.injEq, Prod.mk.injEq, Option.some.injEq] at h
                obtain ⟨⟨hjd, -⟩, -⟩ := h
                subst hjd
                simp only [is_class_str, is_class] at hc
                cases he : dlookup "x__class__" e with
                | none => rw [he] at hc; exact absurd hc (by simp)
                | some v =>
                    cases e with
                    | nil => simp [dlookup] at he
                    | cons p rest => simp [List.isEmpty]
            | none => rw [hpk] at h; simp at h
          · rw [if_neg hc] at h; simp at h
      | str s => simp [load] at h
      | num n => simp [load] at h
      | bool b => simp [load] at h
      | null => simp [load] at h
      | arr l => simp [load] at h

/-- C1: for every document that passes load and validation, starting at a
version `v0` with `0 ≤ v0 ≤ max_version`, over a step registry that is
complete and whose steps leave the `version` field alone, the migration loop
is monotone and convergent: after `k` iterations short of the distance to
the target, the version is exactly `v0 + k` (so it never decreases and,
being below the target, never exceeds it), and as soon as the fuel covers
the distance the loop stops with the version exactly `max_version` and
`migrate` returns and saves the re-assembled document. -/
theorem migrate_monotone_convergent (spec : MigratorSpec) (input : RawInput)
    (jd : Entries) (pd : JVal) (printed : List String)
    (hload : load spec input = Except.ok (some (jd, pd), printed))
    (hpres : StepsPreserveVersion spec) (hcomp : StepsComplete spec)
    (hvi : VersionInt jd)
    (h0 : 0 ≤ getVersion jd) (h1 : getVersion jd ≤ spec.max_version)
    (fuel : Nat) :
    ((fuel : Int) < spec.max_version - getVersion jd →
        ∃ st msgs, runSteps spec fuel ⟨jd, pd⟩ [] = LoopOut.spin st msgs ∧
          getVersion st.jsonDict = getVersion jd + fuel) ∧
      (spec.max_version - getVersion jd ≤ (fuel : Int) →
        ∃ st msgs, runSteps spec fuel ⟨jd, pd⟩ [] = LoopOut.ok st msgs ∧
          getVersion st.jsonDict = spec.max_version ∧
          migrate spec fuel input =
            MigOut.ok (some (dinsert spec.primaryKey st.primaryDict st.jsonDict))
              msgs printed) := by
  obtain ⟨hlt, hge⟩ :=
    runSteps_characterize spec hpres hcomp fuel ⟨jd, pd⟩ [] hvi h0 h1
  refine ⟨hlt, ?_⟩
  intro h
  obtain ⟨st, msgs, heq, hver⟩ := hge h
  refine ⟨st, msgs, heq, hver, ?_⟩
  simp [migrate, hload, load_ok_nonempty hload, heq]

theorem sweep_steps_preserve : StepsPreserveVersion sweepSpec := by
  intro v f hf st
  by_cases hv : v = 0
  · subst hv
    simp only [sweepSpec, if_true, ite_true, eq_self_iff_true, Option.some.injEq] at hf
    subst hf
    rfl
  · simp [sweepSpec, hv] at hf

theorem sweep_steps_complete : StepsComplete sweepSpec := by
  intro v h0 h1
  have hv : v = 0 := by
    simp only [sweepSpec] at h1
    omega
  simp [sweepSpec, hv]

/-- Witness for C1: the Sweep family migrating its document from version 0
reaches exactly the target version 1 and saves. -/
theorem migrate_monotone_convergent_witness :
    ∃ st msgs, runSteps sweepSpec 1 ⟨sweepDoc0, JVal.obj []⟩ [] = LoopOut.ok st msgs ∧
      getVersion st.jsonDict = sweepSpec.max_version ∧
      migrate sweepSpec 1 (RawInput.parsed (JVal.obj sweepDoc0)) =
        MigOut.ok (some (dinsert sweepSpec.primaryKey st.primaryDict st.jsonDict))
          msgs [] := by
  have h := migrate_monotone_convergent sweepSpec
    (RawInput.parsed (JVal.obj sweepDoc0)) sweepDoc0 (JVal.obj []) []
    (by rfl) sweep_steps_preserve sweep_steps_complete
    (Or.inl (by rfl)) (by decide) (by decide) 1
  exact h.2 (by decide)

theorem is_class_str_obj (e : Entries) (c : String) :
    is_class_str (JVal.obj e) c = classFieldIs e c := by
  simp only [is_class_str, is_class, classFieldIs]
  cases dlookup "x__class__" e with
  | none => rfl
  | some v => simp [List.any]

/-- Counterexample to C2 as stated: on a document whose current version has
no registered step, `migrate` does not return the accumulated log with an
error entry — the `AttributeError` from `getattr` escapes, so nothing at all
is returned (and nothing is written). -/
theorem migrate_missing_step_counterexample :
    migrate sweepSpec 5 (RawInput.parsed (JVal.obj sweepDocNeg)) =
      MigOut.err MigError.attributeError := rfl

/-- C2 (amended): when the document passes load and validation but its
current version has no registered step, the engine halts that family's
migration without writing output and the failure propagates to the caller as
an uncaught `AttributeError`; the log accumulated so far is lost (the
exception prevents any return value) and no error-level entry is recorded. -/
theorem migrate_missing_step (spec : MigratorSpec) (input : RawInput)
    (jd : Entries) (pd : JVal) (printed : List String)
    (hload : load spec input = Except.ok (some (jd, pd), printed))
    (hlt : getVersion jd < spec.max_version)
    (hmiss : spec.steps (getVersion jd) = none)
    (fuel : Nat) :
    migrate spec (fuel + 1) input = MigOut.err MigError.attributeError := by
  simp [migrate, hload, load_ok_nonempty hload, runSteps, if_pos hlt, hmiss]

/-- Witness for C2 (amended) at the concrete version -1 Sweep document. -/
theorem migrate_missing_step_witness :
    migrate sweepSpec 5 (RawInput.parsed (JVal.obj sweepDocNeg)) =
      MigOut.err MigError.attributeError :=
  migrate_missing_step sweepSpec (RawInput.parsed (JVal.obj sweepDocNeg))
    sweepDocNeg (JVal.obj []) [] rfl (by decide) rfl 4

/-- Counterexample to C3 as stated: bytes that fail to parse as JSON do not
give a soft `none`-and-empty-log return — `json.load`'s `ValueError` is not
caught (`load` catches only `IOError`) and escapes `migrate`. -/
theorem migrate_parse_error_counterexample :
    migrate sweepSpec 5 RawInput.parseError = MigOut.err MigError.valueError := rfl

/-- C3 (amended): a missing file (`IOError`) and a parse that yields a
non-mapping are soft — `migrate` returns no output document and an empty
message log, without halting the caller (the prints are console output, not
returned log entries) — but bytes that fail to parse as JSON raise an
uncaught `ValueError` that halts the caller. -/
theorem migrate_unreadable (spec : MigratorSpec) (fuel : Nat) (j : JVal)
    (hj : isObjB j = false) :
    migrate spec fuel RawInput.ioError =
        MigOut.ok none [] [notFoundMsg spec, invalidMsg spec] ∧
      migrate spec fuel (RawInput.parsed j) = MigOut.ok none [] [invalidMsg spec] ∧
      migrate spec fuel RawInput.parseError = MigOut.err MigError.valueError := by
  refine ⟨rfl, ?_, rfl⟩
  cases j with
  | obj e => simp [isObjB] at hj
  | str s => rfl
  | num n => rfl
  | bool b => rfl
  | null => rfl
  | arr l => rfl

/-- Witness for C3 (amended) at a concrete non-mapping JSON value. -/
theorem migrate_unreadable_witness :
    migrate sweepSpec 3 RawInput.ioError =
        MigOut.ok none [] [notFoundMsg sweepSpec, invalidMsg sweepSpec] ∧
      migrate sweepSpec 3 (RawInput.parsed (JVal.arr [JVal.num 1])) =
        MigOut.ok none [] [invalidMsg sweepSpec] ∧
      migrate sweepSpec 3 RawInput.parseError = MigOut.err MigError.valueError :=
  migrate_unreadable sweepSpec 3 (JVal.arr [JVal.num 1]) rfl

/-- C7: a parsed document whose tag-class field is not exactly the family's
expected class, or which lacks the family's primary key, makes the engine
print the validation message, return no output document (`saved = none`,
empty message log) and leave the file untouched (no write happens: only the
`save` path produces output). -/
theorem migrate_validation_failure (spec : MigratorSpec) (fuel : Nat)
    (e : Entries)
    (hbad : classFieldIs e spec.libraryClass = false ∨
      hasKey spec.primaryKey e = false) :
    migrate spec fuel (RawInput.parsed (JVal.obj e)) =
      MigOut.ok none [] [invalidMsg spec] := by
  by_cases hc : is_class_str (JVal.obj e) spec.libraryClass
  · have hpk : dlookup spec.primaryKey e = none := by
      rcases hbad with hb | hb
      · rw [is_class_str_obj] at hc
        rw [hc] at hb
        exact absurd hb (by simp)
      · exact Option.not_isSome_iff_eq_none.mp (by simp [hasKey] at hb; simp [hb])
    simp [migrate, load, if_pos hc, hpk]
  · simp [migrate, load, if_neg hc]

/-- Witness for C7: a document tagged `ChannelLibrary` handed to the Sweep
migrator fails validation. -/
theorem migrate_validation_failure_witness :
    migrate sweepSpec 2 (RawInput.parsed
        (JVal.obj [("x__class__", JVal.str "ChannelLibrary"),
                   ("sweepDict", JVal.obj [])])) =
      MigOut.ok none [] [invalidMsg sweepSpec] :=
  migrate_validation_failure sweepSpec 2
    [("x__class__", JVal.str "ChannelLibrary"), ("sweepDict", JVal.obj [])]
    (Or.inl rfl)

/-- C5: `snakeify` is the two ordered boundary-insertion passes
(`first_cap_re` then `all_cap_re`, left-to-right non-overlapping `re.sub`
scans) followed by lowercasing the whole string, and it maps the reference
literals as the spec states; on already-normalized input it is idempotent. -/
theorem snakeify_two_pass_literals :
    (∀ name : String,
        snakeify name = String.mk ((allCapSub (firstCapSub name.toList)).map lowerChar)) ∧
      snakeify "SSBFreq" = "ssb_freq" ∧
      snakeify "trigChan" = "trig_chan" ∧
      snakeify "i_ffreq" = "i_ffreq" ∧
      snakeify (snakeify "SSBFreq") = snakeify "SSBFreq" ∧
      snakeify (snakeify "trigChan") = snakeify "trigChan" :=
  ⟨fun _ => rfl, by decide, by decide, by decide, by decide, by decide⟩

/-- C6: `rec_snakeify` recurses into dict-valued entries first (at depth
`level + 1`); a key is renamed by `snakeify` exactly when the current depth
reaches `start_level`, keys at shallower depths pass through unchanged;
non-dict values (lists included) are returned untouched; and the concrete
depth-gating example from the spec holds. -/
theorem rec_snakeify_depth_gating :
    (∀ (d : Entries) (s l : Nat), l < s → (d.map Prod.fst).Nodup →
        rec_snakeify d s l = d.map (fun kv => (kv.1, snakeVal s (l + 1) kv.2))) ∧
      (∀ (d : Entries) (s l : Nat), s ≤ l →
          (d.map (fun kv => snakeify kv.1)).Nodup →
          rec_snakeify d s l =
            d.map (fun kv => (snakeify kv.1, snakeVal s (l + 1) kv.2))) ∧
      (∀ (s l : Nat) (v : JVal), isObjB v = false → snakeVal s l v = v) ∧
      rec_snakeify [("Outer", JVal.obj [("InnerKey", JVal.num 1)])] 1 0 =
        [("Outer", JVal.obj [("inner_key", JVal.num 1)])] := by
  have hbelow : ∀ (d : Entries) (s l : Nat), l < s → (d.map Prod.fst).Nodup →
      rec_snakeify d s l = d.map (fun kv => (kv.1, snakeVal s (l + 1) kv.2)) := by
    intro d s l hls hnd
    have ht : ∀ kv : String × JVal, tKey s l kv.1 = kv.1 := by
      intro kv; simp [tKey, Nat.not_le.mpr hls]
    have hmapkeys : d.map (fun kv => tKey s l kv.1) = d.map Prod.fst :=
      List.map_congr_left (fun kv _ => ht kv)
    have := snakeEntries_eq_append s l d []
      (by rw [hmapkeys]; exact hnd)
      (by intro k _; rfl)
    rw [rec_snakeify, this]
    simp only [List.nil_append]
    exact List.map_congr_left (fun kv _ => by rw [ht kv])
  have hat : ∀ (d : Entries) (s l : Nat), s ≤ l →
      (d.map (fun kv => snakeify kv.1)).Nodup →
      rec_snakeify d s l =
        d.map (fun kv => (snakeify kv.1, snakeVal s (l + 1) kv.2)) := by
    intro d s l hsl hnd
    have ht : ∀ kv : String × JVal, tKey s l kv.1 = snakeify kv.1 := by
      intro kv; simp [tKey, hsl]
    have hmapkeys : d.map (fun kv => tKey s l kv.1) =
        d.map (fun kv => snakeify kv.1) :=
      List.map_congr_left (fun kv _ => ht kv)
    have := snakeEntries_eq_append s l d []
      (by rw [hmapkeys]; exact hnd)
      (by intro k _; rfl)
    rw [rec_snakeify, this]
    simp only [List.nil_append]
    exact List.map_congr_left (fun kv _ => by rw [ht kv])
  have hnonobj : ∀ (s l : Nat) (v : JVal), isObjB v = false → snakeVal s l v = v := by
    intro s l v hv
    cases v with
    | obj e => simp [isObjB] at hv
    | str t => simp [snakeVal]
    | num n => simp [snakeVal]
    | bool b => simp [snakeVal]
    | null => simp [snakeVal]
    | arr elts => simp [snakeVal]
  refine ⟨hbelow, hat, hnonobj, ?_⟩
  rw [hbelow _ 1 0 (by omega) (by simp)]
  have hinner : snakeVal 1 1 (JVal.obj [("InnerKey", JVal.num 1)]) =
      JVal.obj [("inner_key", JVal.num 1)] := by
    have := hat [("InnerKey", JVal.num 1)] 1 1 (le_refl 1) (by simp)
    rw [rec_snakeify] at this
    simp only [snakeVal, this, List.map_cons, List.map_nil]
    rfl
  simp only [List.map_cons, List.map_nil, hinner]

/-- Witness for C6 at depths strictly below `start_level`: the key passes
through unchanged. -/
theorem rec_snakeify_depth_gating_witness :
    rec_snakeify [("TopKey", JVal.num 3)] 5 2 = [("TopKey", JVal.num 3)] := by
  rw [rec_snakeify_depth_gating.1 [("TopKey", JVal.num 3)] 5 2 (by omega) (by simp)]
  simp [snakeVal]

/-! ## Lemmas connecting `dlookup` and membership (distinct keys) -/

theorem mem_of_dlookup_eq_some {α : Type} {a : String} {v : α} :
    ∀ {d : List (String × α)}, dlookup a d = some v → (a, v) ∈ d := by
  intro d
  induction d with
  | nil => intro h; simp [dlookup] at h
  | cons p rest ih =>
      obtain ⟨k', v'⟩ := p
      intro h
      by_cases hk : k' = a
      · subst hk
        simp only [dlookup, if_pos, eq_self_iff_true, if_true,
          Option.some.injEq] at h
        subst h
        exact List.mem_cons_self _ _
      · rw [dlookup, if_neg hk] at h
        exact List.mem_cons_of_mem _ (ih h)

theorem dlookup_eq_some_of_mem {α : Type} {a : String} {v : α} :
    ∀ {d : List (String × α)}, (d.map Prod.fst).Nodup → (a, v) ∈ d →
      dlookup a d = some v := by
  intro d
  induction d with
  | nil => intro _ h; simp at h
  | cons p rest ih =>
      obtain ⟨k', v'⟩ := p
      intro hnd hmem
      rw [List.map_cons] at hnd
      obtain ⟨hnotin, hnd'⟩ := List.nodup_cons.mp hnd
      rcases List.mem_cons.mp hmem with heq | hmem'
      · injection heq with h1 h2
        subst h1; subst h2
        simp [dlookup]
      · have hka : k' ≠ a := by
          intro hk
          rw [hk] at hnotin
          exact hnotin (List.mem_map.mpr ⟨(a, v), hmem', rfl⟩)
        rw [dlookup, if_neg hka]
        exact ih hnd' hmem'

/-- Records without a tag-class field never satisfy `is_class`. -/
theorem is_class_false_of_no_tag {v : JVal} (h : hasClassTag v = false)
    (classes : List String) : is_class v classes = false := by
  cases v with
  | obj e =>
      simp only [hasClassTag, hasKey] at h
      simp only [is_class]
      cases he : dlookup "x__class__" e with
      | none => rfl
      | some w => rw [he] at h; simp at h
  | str s => rfl
  | num n => rfl
  | bool b => rfl
  | null => rfl
  | arr l => rfl

/-- C8: over a primary dictionary with (necessarily) distinct entity names,
`get_items_matching_class` returns exactly the entity names whose record's
tag-class field equals (exact string comparison inside `is_class`) a member
of the class list; a record lacking the tag field never matches; and the
result of two calls on the same dictionary is the same sequence. -/
theorem entity_filter_spec (d : Entries) (classes : List String)
    (hnd : (d.map Prod.fst).Nodup) :
    (∀ a, a ∈ get_items_matching_class d classes ↔
        ∃ v, (a, v) ∈ d ∧ is_class v classes = true) ∧
      (∀ a v, (a, v) ∈ d → hasClassTag v = false →
        a ∉ get_items_matching_class d classes) ∧
      get_items_matching_class d classes = get_items_matching_class d classes := by
  have hmem : ∀ a, a ∈ get_items_matching_class d classes ↔
      ∃ v, (a, v) ∈ d ∧ is_class v classes = true := by
    intro a
    simp only [get_items_matching_class, List.mem_filter]
    constructor
    · rintro ⟨hin, hp⟩
      obtain ⟨⟨k, v⟩, hkv, hfst⟩ := List.mem_map.mp hin
      subst hfst
      have hl : dlookup k d = some v := dlookup_eq_some_of_mem hnd hkv
      rw [hl] at hp
      exact ⟨v, hkv, hp⟩
    · rintro ⟨v, hkv, hic⟩
      refine ⟨List.mem_map.mpr ⟨(a, v), hkv, rfl⟩, ?_⟩
      rw [dlookup_eq_some_of_mem hnd hkv]
      exact hic
  refine ⟨hmem, ?_, rfl⟩
  intro a v hkv htag hin
  obtain ⟨v', hkv', hic'⟩ := (hmem a).mp hin
  have : v' = v := by
    have h1 := dlookup_eq_some_of_mem hnd hkv
    have h2 := dlookup_eq_some_of_mem hnd hkv'
    rw [h1] at h2
    injection h2 with h2
    exact h2.symm
  subst this
  rw [is_class_false_of_no_tag htag classes] at hic'
  exact absurd hic' (by simp)

/-- Witness for C8: `r1` has no tag-class field and is never returned. -/
theorem entity_filter_spec_witness :
    "r1" ∉ get_items_matching_class entityDictW ["Qubit", "Measurement"] :=
  (entity_filter_spec entityDictW ["Qubit", "Measurement"] (by decide)).2.1
    "r1" (JVal.obj [("physChan", JVal.str "q1")]) (by simp [entityDictW]) rfl

/-! ## Lemmas about the codec dictionary operations -/

theorem dlookup_append_of_some {α : Type} {k : String} {v : α}
    {d1 : List (String × α)} (d2 : List (String × α))
    (h : dlookup k d1 = some v) : dlookup k (d1 ++ d2) = some v := by
  induction d1 with
  | nil => simp [dlookup] at h
  | cons p rest ih =>
      obtain ⟨k', v'⟩ := p
      by_cases hk : k' = k
      · rw [dlookup, if_pos hk] at h
        simp [dlookup, if_pos hk, h]
      · rw [dlookup, if_neg hk] at h
        simp [dlookup, if_neg hk, ih h]

theorem dlookup_append_of_none {α : Type} {k : String}
    {d1 : List (String × α)} (d2 : List (String × α))
    (h : dlookup k d1 = none) : dlookup k (d1 ++ d2) = dlookup k d2 := by
  induction d1 with
  | nil => simp [dlookup]
  | cons p rest ih =>
      obtain ⟨k', v'⟩ := p
      by_cases hk : k' = k
      · rw [dlookup, if_pos hk] at h; exact absurd h (by simp)
      · rw [dlookup, if_neg hk] at h
        simp [dlookup, if_neg hk, ih h]

theorem dremove_append_of_not_has {k : String} {d1 : Entries} (d2 : Entries)
    (h : hasKey k d1 = false) : dremove k (d1 ++ d2) = d1 ++ dremove k d2 := by
  induction d1 with
  | nil => simp [dremove]
  | cons p rest ih =>
      obtain ⟨k', v'⟩ := p
      simp only [hasKey, dlookup] at h
      by_cases hk : k' = k
      · rw [if_pos hk] at h; exact absurd h (by simp)
      · rw [if_neg hk] at h
        simp [dremove, if_neg hk]
        exact ih h

theorem hasKey_dremove {k k' : String} :
    ∀ {d : Entries}, hasKey k d = false → hasKey k (dremove k' d) = false := by
  intro d
  induction d with
  | nil => intro _; rfl
  | cons p rest ih =>
      obtain ⟨k0, v0⟩ := p
      intro h
      simp only [hasKey, dlookup] at h
      by_cases h0 : k0 = k
      · rw [if_pos h0] at h; exact absurd h (by simp)
      · rw [if_neg h0] at h
        by_cases h1 : k0 = k'
        · simpa [dremove, if_pos h1, hasKey] using h
        · simpa [dremove, if_neg h1, hasKey, dlookup, if_neg h0] using ih h

/-- `popTag` only raises `KeyError`. -/
theorem popTag_error_keyError {p l : String} {d : Entries} {e : DecodeErr}
    (h : popTag p l d = Except.error e) : e = DecodeErr.keyError := by
  cases hp : dlookup p d with
  | some v =>
      by_cases ht : pyTruthy v
      · simp [popTag, dpop, hp, ht] at h
      · cases hl : dlookup l (dremove p d) with
        | some w => simp [popTag, dpop, hp, ht, hl] at h
        | none =>
            simp only [popTag, dpop, hp, ht, hl, Bool.false_eq_true, if_false,
              Except.error.injEq] at h
            exact h.symm
  | none =>
      cases hl : dlookup l d with
      | some w => simp [popTag, dpop, hp, hl] at h
      | none =>
          simp only [popTag, dpop, hp, hl, Except.error.injEq] at h
          exact h.symm

/-- A successful `popTag` leaves a sub-dictionary: keys absent from the input
remain absent. -/
theorem popTag_ok_absent {p l : String} {d : Entries} {v : JVal} {d1 : Entries}
    (h : popTag p l d = Except.ok (v, d1)) {k : String}
    (hk : hasKey k d = false) : hasKey k d1 = false := by
  cases hp : dlookup p d with
  | some w =>
      by_cases ht : pyTruthy w
      · simp only [popTag, dpop, hp, ht, if_true, Except.ok.injEq,
          Prod.mk.injEq] at h
        rw [← h.2]
        exact hasKey_dremove hk
      · cases hl : dlookup l (dremove p d) with
        | some w2 =>
            simp only [popTag, dpop, hp, ht, hl, Bool.false_eq_true, if_false,
              Except.ok.injEq, Prod.mk.injEq] at h
            rw [← h.2]
            exact hasKey_dremove (hasKey_dremove hk)
        | none => simp [popTag, dpop, hp, ht, hl] at h
  | none =>
      cases hl : dlookup l d with
      | some w2 =>
          simp only [popTag, dpop, hp, hl, Except.ok.injEq, Prod.mk.injEq] at h
          rw [← h.2]
          exact hasKey_dremove hk
      | none => simp [popTag, dpop, hp, hl] at h

/-- `popTag` on a dictionary lacking both spellings is a `KeyError`. -/
theorem popTag_absent_keyError {p l : String} {d : Entries}
    (hp : hasKey p d = false) (hl : hasKey l d = false) :
    popTag p l d = Except.error DecodeErr.keyError := by
  have hp' : dlookup p d = none := Option.not_isSome_iff_eq_none.mp (by simp [hasKey] at hp; simp [hp])
  have hl' : dlookup l d = none := Option.not_isSome_iff_eq_none.mp (by simp [hasKey] at hl; simp [hl])
  simp [popTag, dpop, hp', hl']

theorem dlookup_eq_none_of_hasKey_false {α : Type} {k : String}
    {d : List (String × α)} (h : hasKey k d = false) : dlookup k d = none := by
  cases hd : dlookup k d with
  | none => rfl
  | some v => rw [hasKey, hd] at h; simp at h

/-- C10: a mapping carrying a type-name under either spelling but no module
field under either spelling makes `dict_to_obj` raise an untyped `KeyError`
(the second `pop` has no default) instead of decoding the mapping as plain
data — even though the module tag is described as optional elsewhere. -/
theorem decode_missing_module_keyerror (env : PyEnv) (d : Entries)
    (hcls : (hasKey "x__class__" d || hasKey "__class__" d) = true)
    (hm1 : hasKey "x__module__" d = false)
    (hm2 : hasKey "__module__" d = false) :
    dict_to_obj env d = Except.error DecodeErr.keyError := by
  cases hp : popTag "x__class__" "__class__" d with
  | error e =>
      have he := popTag_error_keyError hp
      subst he
      simp [dict_to_obj, hcls, hp]
  | ok pr =>
      obtain ⟨v, d1⟩ := pr
      have h1 : hasKey "x__module__" d1 = false := popTag_ok_absent hp hm1
      have h2 : hasKey "__module__" d1 = false := popTag_ok_absent hp hm2
      simp [dict_to_obj, hcls, hp, popTag_absent_keyError h1 h2]

/-- Witness for C10: a mapping with only a class tag. -/
theorem decode_missing_module_keyerror_witness :
    dict_to_obj ⟨[], []⟩ [("x__class__", JVal.str "Qubit")] =
      Except.error DecodeErr.keyError :=
  decode_missing_module_keyerror ⟨[], []⟩ [("x__class__", JVal.str "Qubit")]
    rfl rfl rfl

/-- C9: decoding the encoding of a serializable value whose class and module
names are non-empty, whose fields do not shadow the current reserved
spellings, and whose class resolves in the running process reproduces the
value: same class, module and field values. -/
theorem codec_round_trip (env : PyEnv) (x : PyObj)
    (tbl : List (String × ClassDef)) (cdef : ClassDef)
    (hcn : x.className ≠ "") (hmn : x.moduleName ≠ "")
    (hf1 : hasKey "x__class__" x.fields = false)
    (hf2 : hasKey "x__module__" x.fields = false)
    (hres : resolveModule env x.moduleName = some tbl)
    (hcls : dlookup x.className tbl = some cdef) :
    dict_to_obj env (encodeObj x) = Except.ok (DecResult.objVal x) := by
  have hxm : hasKey "x__module__"
      (x.fields ++ [("x__class__", JVal.str x.className)]) = false := by
    rw [hasKey_append, hf2, hasKey_singleton]
    decide
  have he : encodeObj x =
      x.fields ++ [("x__class__", JVal.str x.className),
                   ("x__module__", JVal.str x.moduleName)] := by
    rw [encodeObj, dinsert_eq_append _ _ _ hf1, dinsert_eq_append _ _ _ hxm,
      List.append_assoc]
    rfl
  have hlc : dlookup "x__class__" (encodeObj x) = some (JVal.str x.className) := by
    rw [he, dlookup_append_of_none _ (dlookup_eq_none_of_hasKey_false hf1)]
    simp [dlookup]
  have hrm : dremove "x__class__" (encodeObj x) =
      x.fields ++ [("x__module__", JVal.str x.moduleName)] := by
    rw [he, dremove_append_of_not_has _ hf1]
    simp [dremove]
  have hpop1 : popTag "x__class__" "__class__" (encodeObj x) =
      Except.ok (JVal.str x.className,
        x.fields ++ [("x__module__", JVal.str x.moduleName)]) := by
    simp [popTag, dpop, hlc, hrm, pyTruthy, hcn]
  have hlm : dlookup "x__module__"
      (x.fields ++ [("x__module__", JVal.str x.moduleName)]) =
      some (JVal.str x.moduleName) := by
    rw [dlookup_append_of_none _ (dlookup_eq_none_of_hasKey_false hf2)]
    simp [dlookup]
  have hrm2 : dremove "x__module__"
      (x.fields ++ [("x__module__", JVal.str x.moduleName)]) = x.fields := by
    rw [dremove_append_of_not_has _ hf2]
    simp [dremove]
  have hpop2 : popTag "x__module__" "__module__"
      (x.fields ++ [("x__module__", JVal.str x.moduleName)]) =
      Except.ok (JVal.str x.moduleName, x.fields) := by
    simp [popTag, dpop, hlm, hrm2, pyTruthy, hmn]
  have hk : (hasKey "x__class__" (encodeObj x)
      || hasKey "__class__" (encodeObj x)) = true := by
    simp [hasKey, hlc]
  simp [dict_to_obj, hk, hpop1, hpop2, hres, hcls]

/-- Witness for C9 at a concrete value. -/
theorem codec_round_trip_witness :
    dict_to_obj envW (encodeObj objW) = Except.ok (DecResult.objVal objW) :=
  codec_round_trip envW objW [("KernelIntegrator", ⟨true⟩)] ⟨true⟩
    (by decide) (by decide) rfl rfl rfl rfl

/-- Counterexample to C4 as stated: the decoder does NOT resolve the
namespace through a lookup table populated at process start.  On a module
that was not loaded at start but is importable, the code's `__import__`
succeeds and decodes the object, while the decode described by the spec
(startup registry, `UnknownTypeError`) fails — so decode is a dynamic runtime
module import, and its failures are `ImportError`/`AttributeError`, not a typed
`UnknownTypeError`. -/
theorem decode_registry_counterexample :
    dict_to_obj envDyn taggedDyn =
        Except.ok (DecResult.objVal ⟨"Qubit", "QGL.ChannelLibrary", []⟩) ∧
      dict_to_obj_registry_spec envDyn taggedDyn =
        Except.error SpecDecodeErr.unknownTypeError :=
  ⟨rfl, rfl⟩

/-- C4 (amended): for a nested mapping carrying the reserved type-name field
(current spellings, non-empty string tags), decode resolves the namespace by
dynamic runtime import — consulting the modules already loaded and
otherwise importing at decode time — and the type-name by attribute lookup in the
resolved module; a module that is neither loaded nor importable raises
`ImportError`, a type-name absent from the module raises `AttributeError`,
and either failure halts the decode and propagates (no `UnknownTypeError`
type exists in the code). -/
theorem decode_dynamic_import (env : PyEnv) (d : Entries) (cn mn : String)
    (hc : dlookup "x__class__" d = some (JVal.str cn)) (hcn : cn ≠ "")
    (hm : dlookup "x__module__" (dremove "x__class__" d) = some (JVal.str mn))
    (hmn : mn ≠ "") :
    (dlookup mn env.loaded = none → dlookup mn env.importable = none →
        dict_to_obj env d = Except.error DecodeErr.importError) ∧
      (∀ tbl, resolveModule env mn = some tbl → dlookup cn tbl = none →
        dict_to_obj env d = Except.error DecodeErr.attributeError) ∧
      (∀ tbl cdef, dlookup mn env.loaded = none →
        dlookup mn env.importable = some tbl → dlookup cn tbl = some cdef →
        dict_to_obj env d =
          Except.ok (DecResult.objVal
            ⟨cn, mn, dremove "x__module__" (dremove "x__class__" d)⟩)) := by
  have hk : (hasKey "x__class__" d || hasKey "__class__" d) = true := by
    simp [hasKey, hc]
  have hpop1 : popTag "x__class__" "__class__" d =
      Except.ok (JVal.str cn, dremove "x__class__" d) := by
    simp [popTag, dpop, hc, pyTruthy, hcn]
  have hpop2 : popTag "x__module__" "__module__" (dremove "x__class__" d) =
      Except.ok (JVal.str mn, dremove "x__module__" (dremove "x__class__" d)) := by
    simp [popTag, dpop, hm, pyTruthy, hmn]
  refine ⟨?_, ?_, ?_⟩
  · intro hl hi
    have hres : resolveModule env mn = none := by simp [resolveModule, hl, hi]
    simp [dict_to_obj, hk, hpop1, hpop2, hres]
  · intro tbl hres htbl
    simp [dict_to_obj, hk, hpop1, hpop2, hres, htbl]
  · intro tbl cdef hl hi htbl
    have hres : resolveModule env mn = some tbl := by simp [resolveModule, hl, hi]
    simp [dict_to_obj, hk, hpop1, hpop2, hres, htbl]

/-- Witness for C4 (amended): the dynamic-import success branch at the
concrete unloaded-but-importable module. -/
theorem decode_dynamic_import_witness :
    dict_to_obj envDyn taggedDyn =
      Except.ok (DecResult.objVal ⟨"Qubit", "QGL.ChannelLibrary",
        dremove "x__module__" (dremove "x__class__" taggedDyn)⟩) :=
  (decode_dynamic_import envDyn taggedDyn "Qubit" "QGL.ChannelLibrary"
      rfl (by decide) rfl (by decide)).2.2
    [("Qubit", ⟨false⟩)] ⟨false⟩ rfl rfl rfl
